import Mathlib

/-
Verification of the backtest-report generator in analyze-backtest.py.

The script is a straight-line program: it reads one JSON record, recomputes
per-trade profit and loss, cross-checks the equity curve, runs five realism
heuristics, and prints a textual report.  We embed it shallowly: decimals
become rationals, a JSON field that may be absent becomes an Option with the
same default the script passes to dict.get, and every print site becomes a
constructor of an output-trace type.  The whole script is then one total
function from the input record to the list of emitted lines.
-/

namespace AnalyzeBacktest

/-- The performance mapping of the input record (keys winRate and sharpe,
each possibly absent). -/
structure Performance where
  winRate : Option ℚ
  sharpe : Option ℚ
deriving DecidableEq, Repr

/-- One element of the trades sequence.  Every field may be absent; the
script reads each with trade.get(key, default). -/
structure Trade where
  entryPrice : Option ℚ
  exitPrice : Option ℚ
  size : Option ℚ
  side : Option String
  fees : Option ℚ
  slippage : Option ℚ
  pnl : Option ℚ
deriving DecidableEq, Repr

/-- The BacktestResult input record.  Every field may be absent. -/
structure BacktestResult where
  initialEquity : Option ℚ
  finalEquity : Option ℚ
  totalReturnPct : Option ℚ
  maxDrawdown : Option ℚ
  trades : Option (List Trade)
  equityCurve : Option (List ℚ)
  performance : Option Performance
deriving DecidableEq, Repr

/-- Source line 32: trade.get, default 0. -/
def Trade.getEntryPrice (t : Trade) : ℚ := t.entryPrice.getD 0

/-- Source line 33: trade.get, default 0. -/
def Trade.getExitPrice (t : Trade) : ℚ := t.exitPrice.getD 0

/-- Source line 34: trade.get, default 0. -/
def Trade.getSize (t : Trade) : ℚ := t.size.getD 0

/-- Source line 35: trade.get, default the string BUY. -/
def Trade.getSide (t : Trade) : String := t.side.getD "BUY"

/-- Source lines 36 and 114: trade.get, default 0. -/
def Trade.getFees (t : Trade) : ℚ := t.fees.getD 0

/-- Source line 37: trade.get, default 0 (read but never used afterwards). -/
def Trade.getSlippage (t : Trade) : ℚ := t.slippage.getD 0

/-- Source line 38: trade.get, default 0 (the reported pnl). -/
def Trade.getPnl (t : Trade) : ℚ := t.pnl.getD 0

/-- Source line 11: data.get, default 0. -/
def BacktestResult.getInitialEquity (r : BacktestResult) : ℚ :=
  r.initialEquity.getD 0

/-- Source line 12: data.get, default 0. -/
def BacktestResult.getFinalEquity (r : BacktestResult) : ℚ :=
  r.finalEquity.getD 0

/-- Source line 13: data.get, default 0. -/
def BacktestResult.getTotalReturnPct (r : BacktestResult) : ℚ :=
  r.totalReturnPct.getD 0

/-- Source lines 23 and 107: data.get, default 0. -/
def BacktestResult.getMaxDrawdown (r : BacktestResult) : ℚ :=
  r.maxDrawdown.getD 0

/-- Source line 14: data.get, default the empty list. -/
def BacktestResult.getTrades (r : BacktestResult) : List Trade :=
  r.trades.getD []

/-- Source line 75: data.get, default the empty list. -/
def BacktestResult.getEquityCurve (r : BacktestResult) : List ℚ :=
  r.equityCurve.getD []

/-- Source line 15: data.get, default the empty mapping. -/
def BacktestResult.getPerformance (r : BacktestResult) : Performance :=
  r.performance.getD ⟨none, none⟩

/-- Source lines 22 and 96: performance.get, default 0 (a fraction in 0..1,
before the multiplication by 100). -/
def BacktestResult.getWinRate (r : BacktestResult) : ℚ :=
  (r.getPerformance).winRate.getD 0

/-- Source line 24: performance.get, default 0. -/
def BacktestResult.getSharpe (r : BacktestResult) : ℚ :=
  (r.getPerformance).sharpe.getD 0

/-- A warning appended to the issues list by a failed realism check
(source lines 92, 98, 103, 109, 116).  Each constructor carries the value
that the formatted warning string interpolates. -/
inductive Issue where
  | extremeReturn (pct : ℚ)
  | unusualWinRate (pct : ℚ)
  | noTrades
  | extremeDrawdown (pct : ℚ)
  | noFees
deriving DecidableEq, Repr

/-- One line (or contiguous fixed block of lines) of the report, one
constructor per print site of the script, carrying the interpolated data.
mismatchBlock is the two prints of lines 58 and 59; tradeDetailBlock is the
five prints of lines 62 to 66; summary is the block of lines 17 to 24. -/
inductive Line where
  | sep
  | title
  | summary (initialEquity finalEquity totalReturnPct : ℚ) (numTrades : Nat)
      (winRatePct maxDrawdown sharpe : ℚ)
  | pnlHeader
  | mismatchBlock (i : Nat) (calculated reported diff : ℚ)
  | tradeDetailBlock (i : Nat) (side : String)
      (size entry exit rawPnl fees netPnl reportedPnl : ℚ)
      (matched : Bool) (equity : ℚ)
  | allPnlVerified
  | pnlMismatchCount (errors : Nat)
  | equityCurveHeader
  | curvePoints (n : Nat)
  | curveStart (v : ℚ)
  | curveEnd (v : ℚ)
  | curveExpectedEnd (v : ℚ)
  | curveMatch
  | curveMismatch
  | realismHeader
  | returnReasonable (pct : ℚ)
  | winRateReasonable (pct : ℚ)
  | tradesGenerated (n : Nat)
  | drawdownReasonable (pct : ℚ)
  | feesDeducted (total : ℚ)
  | issuesFoundHeader
  | issueLine (iss : Issue)
  | allChecksPassed
deriving DecidableEq, Repr

/-- The absolute value as Python computes it, kept executable. -/
def ratAbs (q : ℚ) : ℚ := if q < 0 then -q else q

/-- Source lines 44 to 47: if side is SELL the trade closed a long, raw
pnl is (exit - entry) * size; every other side value (BUY included) takes
the short-closing branch (entry - exit) * size. -/
def raw_pnl (t : Trade) : ℚ :=
  if t.getSide = "SELL" then (t.getExitPrice - t.getEntryPrice) * t.getSize
  else (t.getEntryPrice - t.getExitPrice) * t.getSize

/-- Source line 49: net pnl is raw pnl minus fees (slippage is not used). -/
def net_pnl (t : Trade) : ℚ := raw_pnl t - t.getFees

/-- The mutable state of the per-trade loop: the running equity (line 28),
the error counter (line 29), and the lines printed so far. -/
structure PnlState where
  equity : ℚ
  errors : Nat
  out : List Line
deriving DecidableEq, Repr

/-- One iteration of the loop on source lines 31 to 66, for trade t at
zero-based index i: accumulate equity, flag a mismatch when the absolute
difference to the reported pnl is not below 0.01, and print the detail
block for the first three trades. -/
def tradeStep (s : PnlState) (i : Nat) (t : Trade) : PnlState :=
  let netPnl := net_pnl t
  let equity := s.equity + netPnl
  let diff := ratAbs (netPnl - t.getPnl)
  let matched : Bool := diff < 1/100
  let errors := if matched then s.errors else s.errors + 1
  let out1 := if matched then s.out
    else s.out ++ [Line.mismatchBlock i netPnl t.getPnl diff]
  let out2 := if i < 3 then
      out1 ++ [Line.tradeDetailBlock i t.getSide t.getSize t.getEntryPrice
        t.getExitPrice (raw_pnl t) t.getFees netPnl t.getPnl matched equity]
    else out1
  ⟨equity, errors, out2⟩

/-- The loop of source line 31, folding tradeStep over a trade list with a
running zero-based index. -/
def runTrades (s : PnlState) (i : Nat) : List Trade → PnlState
  | [] => s
  | t :: ts => runTrades (tradeStep s i t) (i + 1) ts

/-- Source line 31: the slice trades[:10], the only trades the pnl loop
ever examines. -/
def checked_trades (r : BacktestResult) : List Trade :=
  r.getTrades.take 10

/-- The state of the loop after all (at most ten) checked trades, started
from equity = initialEquity and errors = 0 (lines 28 and 29). -/
def pnlLoop (r : BacktestResult) : PnlState :=
  runTrades ⟨r.getInitialEquity, 0, []⟩ 0 (checked_trades r)

/-- Source lines 17 to 24: the summary block. -/
def summaryLines (r : BacktestResult) : List Line :=
  [Line.summary r.getInitialEquity r.getFinalEquity r.getTotalReturnPct
    r.getTrades.length (r.getWinRate * 100) r.getMaxDrawdown r.getSharpe]

/-- Source lines 27 to 71: the pnl verification section; after the loop,
the all-verified line iff the error counter is zero, else the count. -/
def pnlSection (r : BacktestResult) : List Line :=
  Line.pnlHeader :: (pnlLoop r).out ++
    (if (pnlLoop r).errors = 0 then [Line.allPnlVerified]
     else [Line.pnlMismatchCount (pnlLoop r).errors])

/-- Source lines 74 to 85: the equity curve section.  The header on line 74
is printed unconditionally; the body only when the curve is non-empty. -/
def curveSection (r : BacktestResult) : List Line :=
  Line.equityCurveHeader ::
    (match r.getEquityCurve with
     | [] => []
     | x :: xs =>
       [Line.curvePoints (x :: xs).length, Line.curveStart x,
        Line.curveEnd ((x :: xs).getLastD 0),
        Line.curveExpectedEnd r.getFinalEquity] ++
       (if ratAbs ((x :: xs).getLastD 0 - r.getFinalEquity) < 1/100
        then [Line.curveMatch] else [Line.curveMismatch]))

/-- Source line 114: the fee sum over the whole trades list, not only the
ten sampled ones. -/
def total_fees (r : BacktestResult) : ℚ :=
  (r.getTrades.map Trade.getFees).sum

/-- Source lines 89 to 116: the issues list, in the order the five checks
append to it.  A check that passes contributes nothing. -/
def realismIssues (r : BacktestResult) : List Issue :=
  (if ratAbs r.getTotalReturnPct > 100 then [Issue.extremeReturn r.getTotalReturnPct]
   else []) ++
  (if r.getWinRate * 100 < 20 ∨ r.getWinRate * 100 > 80
   then [Issue.unusualWinRate (r.getWinRate * 100)] else []) ++
  (if r.getTrades.length = 0 then [Issue.noTrades] else []) ++
  (if r.getMaxDrawdown > 50 then [Issue.extremeDrawdown r.getMaxDrawdown]
   else []) ++
  (if total_fees r = 0 then [Issue.noFees] else [])

/-- Source lines 88 to 125: the realism section.  A check that passes prints
its success line immediately; the collected warnings are printed at the end
under the issues header, or the all-checks-passed line when there are none. -/
def realismSection (r : BacktestResult) : List Line :=
  Line.realismHeader ::
  ((if ratAbs r.getTotalReturnPct > 100 then []
    else [Line.returnReasonable r.getTotalReturnPct]) ++
   (if r.getWinRate * 100 < 20 ∨ r.getWinRate * 100 > 80 then []
    else [Line.winRateReasonable (r.getWinRate * 100)]) ++
   (if r.getTrades.length = 0 then []
    else [Line.tradesGenerated r.getTrades.length]) ++
   (if r.getMaxDrawdown > 50 then []
    else [Line.drawdownReasonable r.getMaxDrawdown]) ++
   (if total_fees r = 0 then [] else [Line.feesDeducted (total_fees r)])) ++
  (if realismIssues r = [] then [Line.allChecksPassed]
   else Line.issuesFoundHeader :: (realismIssues r).map Line.issueLine)

/-- The whole report: every line the script prints, in order. -/
def analyze (r : BacktestResult) : List Line :=
  [Line.sep, Line.title, Line.sep] ++ summaryLines r ++ pnlSection r ++
    curveSection r ++ realismSection r ++ [Line.sep]

/-- The process result: the printed report and the exit status.  The script
never calls sys.exit and raises nothing after the JSON parse, so on every
well-formed record it terminates with status 0. -/
def run (r : BacktestResult) : List Line × Nat := (analyze r, 0)

/-- An observable effect of the process.  The script only ever calls print;
the other constructors exist so that the absence of any file write, network
call or input mutation is expressible. -/
inductive Effect where
  | stdout (l : Line)
  | writeFile (path contents : String)
  | networkCall (endpoint : String)
  | mutateRecord (r : BacktestResult)
deriving DecidableEq, Repr

/-- Whether an effect is a write to standard output. -/
def Effect.isStdout : Effect → Bool
  | .stdout _ => true
  | _ => false

/-- The effect trace of one process run together with the input record as it
stands at exit: every print statement of the script emits one stdout effect,
no other effectful primitive occurs in the source, and no statement assigns
into the record, so the record leaves the run as it entered it. -/
def runEffects (r : BacktestResult) : List Effect × BacktestResult :=
  ((analyze r).map Effect.stdout, r)

/-- Scenario A trade: SELL, entry 100, exit 110, size 1, fees 0.5,
reported pnl 9.5. -/
def sellTrade : Trade :=
  ⟨some 100, some 110, some 1, some "SELL", some (1/2), none, some (19/2)⟩

/-- Scenario A record. -/
def sampleRec : BacktestResult :=
  ⟨some 1000, some 1050, some 5, some 3, some [sellTrade],
   some [1000, 1050], some ⟨some (3/5), some (6/5)⟩⟩

/-- Scenario B trade: as the scenario A trade but reported pnl 5.0, so the
recomputation disagrees by 4.5. -/
def badPnlTrade : Trade :=
  ⟨some 100, some 110, some 1, some "SELL", some (1/2), none, some 5⟩

/-- Scenario B record. -/
def mismatchRec : BacktestResult :=
  ⟨some 1000, some 1050, some 5, some 3, some [badPnlTrade],
   some [1000, 1050], some ⟨some (3/5), some (6/5)⟩⟩

/-- Scenario C record: empty trades list, maxDrawdown 60, winRate 0.9. -/
def scenarioCRec : BacktestResult :=
  ⟨none, none, none, some 60, some [], none, some ⟨some (9/10), none⟩⟩

/-- Scenario D record: the equityCurve key is absent entirely. -/
def noCurveRec : BacktestResult :=
  ⟨some 1000, some 1000, none, none, some [], none, none⟩

/-- A trade whose only present field is a fee of 1. -/
def feeTrade : Trade := ⟨none, none, none, none, some 1, none, none⟩

/-- A record with eleven fee-paying trades, one more than the pnl loop
samples. -/
def manyTradesRec : BacktestResult :=
  ⟨none, none, none, none, some (List.replicate 11 feeTrade), none, none⟩

/-- The record with every field absent. -/
def emptyRec : BacktestResult := ⟨none, none, none, none, none, none, none⟩

/-- Whether a line is one of the two blocks the pnl loop body can print
(the mismatch block or the per-trade detail block). -/
def Line.isLoopBlock : Line → Bool
  | .mismatchBlock _ _ _ _ => true
  | .tradeDetailBlock _ _ _ _ _ _ _ _ _ _ _ => true
  | _ => false

/-- Whether a line is the per-trade detail block of source lines 62 to 66. -/
def Line.isDetailBlock : Line → Bool
  | .tradeDetailBlock _ _ _ _ _ _ _ _ _ _ _ => true
  | _ => false

/-- The report section a line constructor belongs to: 0 the frame, 1 the
summary, 2 the pnl verification, 3 the equity curve, 4 the realism check. -/
def Line.sectionTag : Line → Nat
  | .sep => 0
  | .title => 0
  | .summary _ _ _ _ _ _ _ => 1
  | .pnlHeader => 2
  | .mismatchBlock _ _ _ _ => 2
  | .tradeDetailBlock _ _ _ _ _ _ _ _ _ _ _ => 2
  | .allPnlVerified => 2
  | .pnlMismatchCount _ => 2
  | .equityCurveHeader => 3
  | .curvePoints _ => 3
  | .curveStart _ => 3
  | .curveEnd _ => 3
  | .curveExpectedEnd _ => 3
  | .curveMatch => 3
  | .curveMismatch => 3
  | .realismHeader => 4
  | .returnReasonable _ => 4
  | .winRateReasonable _ => 4
  | .tradesGenerated _ => 4
  | .drawdownReasonable _ => 4
  | .feesDeducted _ => 4
  | .issuesFoundHeader => 4
  | .issueLine _ => 4
  | .allChecksPassed => 4

/-- A trade with every field made explicitly present, holding exactly the
value the script would read off the original trade. -/
def fillTrade (t : Trade) : Trade :=
  ⟨some t.getEntryPrice, some t.getExitPrice, some t.getSize, some t.getSide,
   some t.getFees, some t.getSlippage, some t.getPnl⟩

/-- A record with every field made explicitly present, holding exactly the
default the script substitutes for an absent field. -/
def fillDefaults (r : BacktestResult) : BacktestResult :=
  ⟨some r.getInitialEquity, some r.getFinalEquity, some r.getTotalReturnPct,
   some r.getMaxDrawdown, some (r.getTrades.map fillTrade),
   some r.getEquityCurve, some ⟨some r.getWinRate, some r.getSharpe⟩⟩

/-- Stated from the spec wording: the number of failed checks among the
five realism checks (return magnitude, win-rate range, trade count,
max drawdown, nonzero total fees), to be compared with the length of the
issues list the code builds. -/
def spec_failedCheckCount (r : BacktestResult) : Nat :=
  (if ratAbs r.getTotalReturnPct > 100 then 1 else 0) +
  (if r.getWinRate * 100 < 20 ∨ r.getWinRate * 100 > 80 then 1 else 0) +
  (if r.getTrades.length = 0 then 1 else 0) +
  (if r.getMaxDrawdown > 50 then 1 else 0) +
  (if total_fees r = 0 then 1 else 0)

lemma tradeStep_equity (s : PnlState) (i : Nat) (t : Trade) :
    (tradeStep s i t).equity = s.equity + net_pnl t := by
  simp [tradeStep]

lemma tradeStep_errors (s : PnlState) (i : Nat) (t : Trade) :
    (tradeStep s i t).errors =
      if ratAbs (net_pnl t - t.getPnl) < 1/100 then s.errors else s.errors + 1 := by
  by_cases h : ratAbs (net_pnl t - t.getPnl) < 1/100 <;> simp [tradeStep, h]

lemma tradeStep_out (s : PnlState) (i : Nat) (t : Trade) :
    (tradeStep s i t).out =
      s.out ++
        (if ratAbs (net_pnl t - t.getPnl) < 1/100 then []
         else [Line.mismatchBlock i (net_pnl t) t.getPnl
                (ratAbs (net_pnl t - t.getPnl))]) ++
        (if i < 3 then
          [Line.tradeDetailBlock i t.getSide t.getSize t.getEntryPrice
            t.getExitPrice (raw_pnl t) t.getFees (net_pnl t) t.getPnl
            (decide (ratAbs (net_pnl t - t.getPnl) < 1/100)) (s.equity + net_pnl t)]
         else []) := by
  by_cases h : ratAbs (net_pnl t - t.getPnl) < 1/100 <;>
    by_cases h3 : i < 3 <;>
    simp [tradeStep, h, h3, -one_div]

lemma runTrades_equity (ts : List Trade) (s : PnlState) (i : Nat) :
    (runTrades s i ts).equity = s.equity + (ts.map net_pnl).sum := by
  induction ts generalizing s i with
  | nil => simp [runTrades]
  | cons t ts ih =>
    rw [show runTrades s i (t :: ts) = runTrades (tradeStep s i t) (i + 1) ts from rfl,
      ih, tradeStep_equity]
    simp [add_assoc]

lemma mem_runTrades_out (ts : List Trade) (s : PnlState) (i : Nat) (l : Line)
    (h : l ∈ (runTrades s i ts).out) : l ∈ s.out ∨ l.isLoopBlock = true := by
  induction ts generalizing s i with
  | nil => exact Or.inl h
  | cons t ts ih =>
    rw [show runTrades s i (t :: ts) = runTrades (tradeStep s i t) (i + 1) ts from rfl] at h
    rcases ih (tradeStep s i t) (i + 1) h with h' | h'
    · rw [tradeStep_out] at h'
      simp only [List.mem_append] at h'
      rcases h' with (h1 | h1) | h1
      · exact Or.inl h1
      · right; split at h1 <;> simp_all [Line.isLoopBlock]
      · right; split at h1 <;> simp_all [Line.isLoopBlock]
    · exact Or.inr h'

lemma mem_pnlLoop_out {r : BacktestResult} {l : Line}
    (h : l ∈ (pnlLoop r).out) : l.isLoopBlock = true := by
  have h' : l ∈ (runTrades ⟨r.getInitialEquity, 0, []⟩ 0 (checked_trades r)).out := h
  rcases mem_runTrades_out _ _ _ _ h' with h'' | h''
  · simp at h''
  · exact h''

lemma isLoopBlock_sectionTag {l : Line} (h : l.isLoopBlock = true) :
    l.sectionTag = 2 := by
  cases l <;> simp_all [Line.isLoopBlock, Line.sectionTag]

lemma mem_summaryLines_tag {l : Line} {r : BacktestResult}
    (h : l ∈ summaryLines r) : l.sectionTag = 1 := by
  simp only [summaryLines, List.mem_singleton] at h
  rw [h]; rfl

lemma mem_ite_lists {α : Type} [DecidableEq α] {a : α} {c : Prop} [Decidable c]
    {xs ys : List α} (h : a ∈ if c then xs else ys) : a ∈ xs ∨ a ∈ ys := by
  by_cases hc : c
  · rw [if_pos hc] at h; exact Or.inl h
  · rw [if_neg hc] at h; exact Or.inr h

lemma tag_of_mem_empty_or_single {l x : Line} {c : Prop} [Decidable c]
    (h : l ∈ if c then ([] : List Line) else [x]) : l = x := by
  rcases mem_ite_lists h with h' | h'
  · exact absurd h' (List.not_mem_nil l)
  · simpa using h'

lemma mem_pnlSection_tag {l : Line} {r : BacktestResult}
    (h : l ∈ pnlSection r) : l.sectionTag = 2 := by
  rcases List.mem_cons.1 h with h1 | h1
  · rw [h1]; rfl
  rcases List.mem_append.1 h1 with h2 | h2
  · exact isLoopBlock_sectionTag (mem_pnlLoop_out h2)
  rcases mem_ite_lists h2 with h3 | h3 <;>
    (simp only [List.mem_singleton] at h3; rw [h3]; rfl)

lemma mem_curveSection_tag {l : Line} {r : BacktestResult}
    (h : l ∈ curveSection r) : l.sectionTag = 3 := by
  rcases List.mem_cons.1 h with h1 | h1
  · rw [h1]; rfl
  rcases hc : r.getEquityCurve with _ | ⟨x, xs⟩ <;> simp only [hc] at h1
  · exact absurd h1 (List.not_mem_nil l)
  rcases List.mem_append.1 h1 with h2 | h2
  · simp only [List.mem_cons, List.not_mem_nil, or_false] at h2
    rcases h2 with h3 | h3 | h3 | h3
    · rw [h3]; rfl
    · rw [h3]; rfl
    · rw [h3]; rfl
    · rw [h3]; rfl
  rcases mem_ite_lists h2 with h3 | h3 <;>
    (simp only [List.mem_singleton] at h3; rw [h3]; rfl)

lemma mem_realismSection_tag {l : Line} {r : BacktestResult}
    (h : l ∈ realismSection r) : l.sectionTag = 4 := by
  rcases List.mem_cons.1 h with h1 | h1
  · rw [h1]; rfl
  rcases List.mem_append.1 h1 with h2 | h2
  · rcases List.mem_append.1 h2 with h3 | h3
    · rcases List.mem_append.1 h3 with h4 | h4
      · rcases List.mem_append.1 h4 with h5 | h5
        · rcases List.mem_append.1 h5 with h6 | h6
          · rw [tag_of_mem_empty_or_single h6]; rfl
          · rw [tag_of_mem_empty_or_single h6]; rfl
        · rw [tag_of_mem_empty_or_single h5]; rfl
      · rw [tag_of_mem_empty_or_single h4]; rfl
    · rw [tag_of_mem_empty_or_single h3]; rfl
  rcases mem_ite_lists h2 with h3 | h3
  · simp only [List.mem_singleton] at h3; rw [h3]; rfl
  rcases List.mem_cons.1 h3 with h4 | h4
  · rw [h4]; rfl
  rcases List.mem_map.1 h4 with ⟨iss, _, h5⟩
  rw [← h5]; rfl

lemma mem_analyze_iff (l : Line) (r : BacktestResult) :
    l ∈ analyze r ↔ l = Line.sep ∨ l = Line.title ∨ l ∈ summaryLines r ∨
      l ∈ pnlSection r ∨ l ∈ curveSection r ∨ l ∈ realismSection r := by
  constructor
  · intro h; simp only [analyze, List.mem_append, List.mem_cons,
      List.mem_singleton, List.not_mem_nil, or_false] at h; tauto
  · intro h; simp only [analyze, List.mem_append, List.mem_cons,
      List.mem_singleton, List.not_mem_nil, or_false]; tauto

lemma mem_analyze_pnl (l : Line) (hl : l.sectionTag = 2) (r : BacktestResult) :
    l ∈ analyze r ↔ l ∈ pnlSection r := by
  rw [mem_analyze_iff]
  constructor
  · rintro (rfl | rfl | h | h | h | h)
    · simp [Line.sectionTag] at hl
    · simp [Line.sectionTag] at hl
    · have := mem_summaryLines_tag h; omega
    · exact h
    · have := mem_curveSection_tag h; omega
    · have := mem_realismSection_tag h; omega
  · intro h; tauto

lemma mem_analyze_curve (l : Line) (hl : l.sectionTag = 3) (r : BacktestResult) :
    l ∈ analyze r ↔ l ∈ curveSection r := by
  rw [mem_analyze_iff]
  constructor
  · rintro (rfl | rfl | h | h | h | h)
    · simp [Line.sectionTag] at hl
    · simp [Line.sectionTag] at hl
    · have := mem_summaryLines_tag h; omega
    · have := mem_pnlSection_tag h; omega
    · exact h
    · have := mem_realismSection_tag h; omega
  · intro h; tauto

lemma mem_analyze_realism (l : Line) (hl : l.sectionTag = 4) (r : BacktestResult) :
    l ∈ analyze r ↔ l ∈ realismSection r := by
  rw [mem_analyze_iff]
  constructor
  · rintro (rfl | rfl | h | h | h | h)
    · simp [Line.sectionTag] at hl
    · simp [Line.sectionTag] at hl
    · have := mem_summaryLines_tag h; omega
    · have := mem_pnlSection_tag h; omega
    · have := mem_curveSection_tag h; omega
    · exact h
  · intro h; tauto

/-- C1: for every trade among the first ten of the trades sequence, the
recomputed net pnl equals (exitPrice - entryPrice) * size - fees when the
side is SELL, and (entryPrice - exitPrice) * size - fees when the side is
BUY or any other value (unrecognized sides take the short-closing branch);
the slippage field does not enter the recomputation. -/
theorem c1_net_pnl_formula (r : BacktestResult) (t : Trade)
    (ht : t ∈ checked_trades r) :
    (t.getSide = "SELL" →
      net_pnl t = (t.getExitPrice - t.getEntryPrice) * t.getSize - t.getFees) ∧
    (t.getSide ≠ "SELL" →
      net_pnl t = (t.getEntryPrice - t.getExitPrice) * t.getSize - t.getFees) ∧
    (∀ sl : Option ℚ, net_pnl { t with slippage := sl } = net_pnl t) := by
  refine ⟨fun h => ?_, fun h => ?_, fun sl => ?_⟩
  · rw [net_pnl, raw_pnl, if_pos h]
  · rw [net_pnl, raw_pnl, if_neg h]
  · simp [net_pnl, raw_pnl, Trade.getSide, Trade.getEntryPrice,
      Trade.getExitPrice, Trade.getSize, Trade.getFees]

/-- Witness for C1 at the scenario A record: its single SELL trade is among
the checked trades and its recomputed net pnl follows the long-closing
formula. -/
theorem c1_net_pnl_formula_witness :
    net_pnl sellTrade =
      (sellTrade.getExitPrice - sellTrade.getEntryPrice) * sellTrade.getSize
        - sellTrade.getFees :=
  (c1_net_pnl_formula sampleRec sellTrade
    (by simp [checked_trades, sampleRec, BacktestResult.getTrades])).1 rfl

/-- C6: after the pnl loop has processed the first k checked trades, the
running equity equals the initial equity plus the sum of the recomputed net
pnl of those k trades, accumulated in iteration order; it is never reset
and never adjusted from the equity curve. -/
theorem c6_equity_invariant (r : BacktestResult) (k : Nat) :
    (runTrades ⟨r.getInitialEquity, 0, []⟩ 0 ((checked_trades r).take k)).equity
      = r.getInitialEquity + (((checked_trades r).take k).map net_pnl).sum :=
  runTrades_equity _ _ _

/-- C3: a checked trade increments the error counter and gets a mismatch
block printed exactly when the absolute difference between recomputed and
reported pnl is at least 0.01; after the loop, the all-verified line is
printed exactly when the error counter is zero, and the error count line
is printed when it is not. -/
theorem c3_mismatch_iff :
    (∀ (s : PnlState) (i : Nat) (t : Trade),
        ((tradeStep s i t).errors = s.errors + 1 ↔
          1/100 ≤ ratAbs (net_pnl t - t.getPnl)) ∧
        (Line.mismatchBlock i (net_pnl t) t.getPnl (ratAbs (net_pnl t - t.getPnl))
            ∈ (tradeStep ⟨s.equity, s.errors, []⟩ i t).out ↔
          1/100 ≤ ratAbs (net_pnl t - t.getPnl))) ∧
    (∀ r : BacktestResult,
        (Line.allPnlVerified ∈ analyze r ↔ (pnlLoop r).errors = 0) ∧
        ((pnlLoop r).errors ≠ 0 →
          Line.pnlMismatchCount (pnlLoop r).errors ∈ analyze r)) := by
  constructor
  · intro s i t
    constructor
    · by_cases h : ratAbs (net_pnl t - t.getPnl) < 1/100
      · rw [tradeStep_errors, if_pos h]
        constructor
        · intro he; exact absurd he (by omega)
        · intro hle; exact absurd h (not_lt.2 hle)
      · rw [tradeStep_errors, if_neg h]
        exact iff_of_true rfl (not_lt.1 h)
    · rw [tradeStep_out]
      by_cases h : ratAbs (net_pnl t - t.getPnl) < 1/100
      · rw [if_pos h]
        apply iff_of_false
        · intro hm
          simp only [List.nil_append] at hm
          rcases mem_ite_lists hm with h1 | h1 <;> simp at h1
        · exact fun hle => absurd h (not_lt.2 hle)
      · rw [if_neg h]
        exact iff_of_true (List.mem_append.2 (Or.inl (by simp))) (not_lt.1 h)
  · intro r
    constructor
    · rw [mem_analyze_pnl Line.allPnlVerified rfl r]
      constructor
      · intro hm
        rcases List.mem_cons.1 hm with h1 | h1
        · exact absurd h1 (by simp)
        rcases List.mem_append.1 h1 with h2 | h2
        · have := mem_pnlLoop_out h2; simp [Line.isLoopBlock] at this
        by_cases he : (pnlLoop r).errors = 0
        · exact he
        · rw [if_neg he] at h2; simp at h2
      · intro he
        exact List.mem_cons.2 (Or.inr (List.mem_append.2 (Or.inr
          (by rw [if_pos he]; simp))))
    · intro hne
      rw [mem_analyze_pnl (Line.pnlMismatchCount (pnlLoop r).errors) rfl r]
      exact List.mem_cons.2 (Or.inr (List.mem_append.2 (Or.inr
        (by rw [if_neg hne]; simp))))

/-- Witness for C3 at the scenario B record: its one trade reports 5.0
against a recomputed 9.5, the error counter ends nonzero and the error
count line is printed. -/
theorem c3_mismatch_iff_witness :
    (pnlLoop mismatchRec).errors ≠ 0 ∧
      Line.pnlMismatchCount (pnlLoop mismatchRec).errors ∈ analyze mismatchRec := by
  have h : (pnlLoop mismatchRec).errors ≠ 0 := by
    norm_num [pnlLoop, mismatchRec, checked_trades, runTrades, tradeStep,
      net_pnl, raw_pnl, ratAbs, badPnlTrade, BacktestResult.getTrades,
      BacktestResult.getInitialEquity, Trade.getSide, Trade.getEntryPrice,
      Trade.getExitPrice, Trade.getSize, Trade.getFees, Trade.getPnl]
  exact ⟨h, (c3_mismatch_iff.2 mismatchRec).2 h⟩

lemma curveSection_empty {r : BacktestResult} (he : r.getEquityCurve = []) :
    curveSection r = [Line.equityCurveHeader] := by
  simp only [curveSection, he]

lemma curveSection_cons {r : BacktestResult} {x : ℚ} {xs : List ℚ}
    (hx : r.getEquityCurve = x :: xs) :
    curveSection r = Line.equityCurveHeader ::
      ([Line.curvePoints (x :: xs).length, Line.curveStart x,
        Line.curveEnd ((x :: xs).getLastD 0),
        Line.curveExpectedEnd r.getFinalEquity] ++
       (if ratAbs ((x :: xs).getLastD 0 - r.getFinalEquity) < 1/100
        then [Line.curveMatch] else [Line.curveMismatch])) := by
  simp only [curveSection, hx]

/-- C2 as stated is refuted at the scenario D record: its equityCurve
defaults to the empty list, yet the equity-curve section still produces an
output line, namely the section header printed unconditionally on source
line 74. -/
theorem c2_counterexample :
    noCurveRec.getEquityCurve = [] ∧
      Line.equityCurveHeader ∈ analyze noCurveRec := by
  refine ⟨rfl, ?_⟩
  rw [mem_analyze_curve Line.equityCurveHeader rfl noCurveRec]
  exact List.mem_cons_self _ _

/-- C2 amended: the equity-curve section header is printed on every run;
the body lines (point count, first value, last value, expected final
equity, and the match or mismatch verdict) are printed exactly when
equityCurve is non-empty, and then the match line is printed exactly when
the absolute difference between the last curve point and finalEquity is
below 0.01 (else the mismatch line). -/
theorem c2_curve_section (r : BacktestResult) :
    Line.equityCurveHeader ∈ analyze r ∧
    (r.getEquityCurve = [] →
      (∀ n : Nat, Line.curvePoints n ∉ analyze r) ∧
      (∀ v : ℚ, Line.curveStart v ∉ analyze r) ∧
      (∀ v : ℚ, Line.curveEnd v ∉ analyze r) ∧
      (∀ v : ℚ, Line.curveExpectedEnd v ∉ analyze r) ∧
      Line.curveMatch ∉ analyze r ∧ Line.curveMismatch ∉ analyze r) ∧
    (r.getEquityCurve ≠ [] →
      Line.curvePoints r.getEquityCurve.length ∈ analyze r ∧
      Line.curveStart (r.getEquityCurve.headD 0) ∈ analyze r ∧
      Line.curveEnd (r.getEquityCurve.getLastD 0) ∈ analyze r ∧
      Line.curveExpectedEnd r.getFinalEquity ∈ analyze r ∧
      (Line.curveMatch ∈ analyze r ↔
        ratAbs (r.getEquityCurve.getLastD 0 - r.getFinalEquity) < 1/100) ∧
      (Line.curveMismatch ∈ analyze r ↔
        ¬ ratAbs (r.getEquityCurve.getLastD 0 - r.getFinalEquity) < 1/100)) := by
  refine ⟨?_, fun he => ?_, fun hne => ?_⟩
  · rw [mem_analyze_curve Line.equityCurveHeader rfl r]
    exact List.mem_cons_self _ _
  · refine ⟨fun n => ?_, fun v => ?_, fun v => ?_, fun v => ?_, ?_, ?_⟩
    · rw [mem_analyze_curve (Line.curvePoints n) rfl r, curveSection_empty he]
      simp
    · rw [mem_analyze_curve (Line.curveStart v) rfl r, curveSection_empty he]
      simp
    · rw [mem_analyze_curve (Line.curveEnd v) rfl r, curveSection_empty he]
      simp
    · rw [mem_analyze_curve (Line.curveExpectedEnd v) rfl r,
        curveSection_empty he]
      simp
    · rw [mem_analyze_curve Line.curveMatch rfl r, curveSection_empty he]
      simp
    · rw [mem_analyze_curve Line.curveMismatch rfl r, curveSection_empty he]
      simp
  · obtain ⟨x, xs, hx⟩ : ∃ x xs, r.getEquityCurve = x :: xs := by
      rcases hc : r.getEquityCurve with _ | ⟨x, xs⟩
      · exact absurd hc hne
      · exact ⟨x, xs, rfl⟩
    rw [hx]
    refine ⟨?_, ?_, ?_, ?_, ?_, ?_⟩
    · rw [mem_analyze_curve (Line.curvePoints (x :: xs).length) rfl r,
        curveSection_cons hx]
      simp
    · rw [mem_analyze_curve (Line.curveStart ((x :: xs).headD 0)) rfl r,
        curveSection_cons hx]
      simp
    · rw [mem_analyze_curve (Line.curveEnd ((x :: xs).getLastD 0)) rfl r,
        curveSection_cons hx]
      simp
    · rw [mem_analyze_curve (Line.curveExpectedEnd r.getFinalEquity) rfl r,
        curveSection_cons hx]
      simp
    · rw [mem_analyze_curve Line.curveMatch rfl r, curveSection_cons hx]
      by_cases hm : ratAbs ((x :: xs).getLastD 0 - r.getFinalEquity) < 1/100
      · rw [if_pos hm]
        exact iff_of_true (by simp) hm
      · rw [if_neg hm]
        apply iff_of_false _ hm
        simp
    · rw [mem_analyze_curve Line.curveMismatch rfl r, curveSection_cons hx]
      by_cases hm : ratAbs ((x :: xs).getLastD 0 - r.getFinalEquity) < 1/100
      · rw [if_pos hm]
        apply iff_of_false _ (by simpa using hm)
        simp
      · rw [if_neg hm]
        exact iff_of_true (by simp) hm

/-- C4: the realism issues list is exactly as long as the number of failed
checks among the five realism checks (every check always runs), and on the
scenario C record (no trades, drawdown 60, winRate 0.9) it has exactly four
entries: the unusual-win-rate, no-trades, extreme-drawdown and no-fees
warnings. -/
theorem c4_issue_count :
    (∀ r : BacktestResult, (realismIssues r).length = spec_failedCheckCount r) ∧
    (realismIssues scenarioCRec).length = 4 ∧
    Issue.noTrades ∈ realismIssues scenarioCRec ∧
    Issue.extremeDrawdown 60 ∈ realismIssues scenarioCRec ∧
    Issue.unusualWinRate 90 ∈ realismIssues scenarioCRec ∧
    Issue.noFees ∈ realismIssues scenarioCRec := by
  have hsc : realismIssues scenarioCRec =
      [Issue.unusualWinRate 90, Issue.noTrades, Issue.extremeDrawdown 60,
        Issue.noFees] := by
    norm_num [realismIssues, scenarioCRec, ratAbs, total_fees,
      BacktestResult.getTotalReturnPct, BacktestResult.getWinRate,
      BacktestResult.getPerformance, BacktestResult.getTrades,
      BacktestResult.getMaxDrawdown, Trade.getFees]
  refine ⟨fun r => ?_, by rw [hsc]; rfl, by rw [hsc]; simp, by rw [hsc]; simp,
    by rw [hsc]; simp, by rw [hsc]; simp⟩
  unfold realismIssues spec_failedCheckCount
  by_cases h1 : ratAbs r.getTotalReturnPct > 100 <;>
    by_cases h2 : r.getWinRate * 100 < 20 ∨ r.getWinRate * 100 > 80 <;>
    by_cases h3 : r.getTrades.length = 0 <;>
    by_cases h4 : r.getMaxDrawdown > 50 <;>
    by_cases h5 : total_fees r = 0 <;>
    simp [h1, h2, h3, h4, h5]

lemma isDetailBlock_sectionTag {l : Line} (h : l.isDetailBlock = true) :
    l.sectionTag = 2 := by
  cases l <;> simp_all [Line.isDetailBlock, Line.sectionTag]

lemma countP_detail_of_tag (ls : List Line) (h : ∀ l ∈ ls, l.sectionTag ≠ 2) :
    ls.countP Line.isDetailBlock = 0 :=
  List.countP_eq_zero.2 fun l hl hp => h l hl (isDetailBlock_sectionTag hp)

lemma countP_tradeStep (s : PnlState) (i : Nat) (t : Trade) :
    ((tradeStep s i t).out.countP Line.isDetailBlock) =
      s.out.countP Line.isDetailBlock + (if i < 3 then 1 else 0) := by
  rw [tradeStep_out]
  by_cases h : ratAbs (net_pnl t - t.getPnl) < 1/100 <;>
    by_cases h3 : i < 3 <;>
    simp [h, h3, List.countP_append, List.countP_cons, Line.isDetailBlock]

lemma countP_runTrades (ts : List Trade) (s : PnlState) (i : Nat) :
    ((runTrades s i ts).out.countP Line.isDetailBlock) =
      s.out.countP Line.isDetailBlock + min ts.length (3 - i) := by
  induction ts generalizing s i with
  | nil => simp [runTrades]
  | cons t ts ih =>
    rw [show runTrades s i (t :: ts) = runTrades (tradeStep s i t) (i + 1) ts
      from rfl, ih, countP_tradeStep]
    by_cases h3 : i < 3 <;> simp [h3] <;> omega

lemma countP_pnlSection (r : BacktestResult) :
    (pnlSection r).countP Line.isDetailBlock =
      (pnlLoop r).out.countP Line.isDetailBlock := by
  unfold pnlSection
  have h0 : (if (pnlLoop r).errors = 0 then [Line.allPnlVerified]
      else [Line.pnlMismatchCount (pnlLoop r).errors]).countP
        Line.isDetailBlock = 0 := by
    by_cases he : (pnlLoop r).errors = 0 <;>
      simp [he, List.countP_cons, Line.isDetailBlock]
  rw [List.countP_append, h0, List.countP_cons]
  simp [Line.isDetailBlock]

lemma countP_pnlLoop (r : BacktestResult) :
    (pnlLoop r).out.countP Line.isDetailBlock =
      min (checked_trades r).length 3 := by
  have h : (pnlLoop r).out.countP Line.isDetailBlock =
      (([] : List Line)).countP Line.isDetailBlock +
        min (checked_trades r).length (3 - 0) :=
    countP_runTrades (checked_trades r) ⟨r.getInitialEquity, 0, []⟩ 0
  simpa using h

lemma countP_detail_analyze (r : BacktestResult) :
    (analyze r).countP Line.isDetailBlock =
      (pnlLoop r).out.countP Line.isDetailBlock := by
  unfold analyze
  rw [List.countP_append, List.countP_append, List.countP_append,
    List.countP_append, List.countP_append, countP_pnlSection]
  rw [countP_detail_of_tag (summaryLines r)
      (fun l hl => by rw [mem_summaryLines_tag hl]; omega),
    countP_detail_of_tag (curveSection r)
      (fun l hl => by rw [mem_curveSection_tag hl]; omega),
    countP_detail_of_tag (realismSection r)
      (fun l hl => by rw [mem_realismSection_tag hl]; omega)]
  simp [List.countP_cons, Line.isDetailBlock]

/-- C5: the pnl loop examines exactly the first min(10, n) trades (the
slice trades[:10]), the detail block is printed for exactly the first
min(3, n) trades, while the fee-deduction realism check sums the fees of
the entire trades sequence; on a record with eleven unit-fee trades the
full fee sum differs from the fee sum of the ten sampled trades. -/
theorem c5_sampling :
    (∀ r : BacktestResult,
      checked_trades r = r.getTrades.take 10 ∧
      (checked_trades r).length = min 10 r.getTrades.length ∧
      (analyze r).countP Line.isDetailBlock = min 3 r.getTrades.length ∧
      total_fees r = (r.getTrades.map Trade.getFees).sum) ∧
    (∀ (s : PnlState) (i : Nat) (t : Trade),
      (tradeStep s i t).out.countP Line.isDetailBlock =
          s.out.countP Line.isDetailBlock + 1 ↔ i < 3) ∧
    total_fees manyTradesRec ≠
      ((manyTradesRec.getTrades.take 10).map Trade.getFees).sum := by
  refine ⟨?_, ?_, ?_⟩
  · intro r
    refine ⟨rfl, ?_, ?_, rfl⟩
    · rw [checked_trades, List.length_take]
    · rw [countP_detail_analyze, countP_pnlLoop, checked_trades,
        List.length_take]
      omega
  · intro s i t
    rw [countP_tradeStep]
    by_cases h3 : i < 3 <;> simp [h3]
  · have h11 : total_fees manyTradesRec = 11 := by
      have he : (manyTradesRec.getTrades.map Trade.getFees) =
          List.replicate 11 (1 : ℚ) := by
        simp [manyTradesRec, BacktestResult.getTrades, feeTrade,
          Trade.getFees, List.map_replicate]
      rw [total_fees, he, List.sum_replicate]
      norm_num
    have h10 : ((manyTradesRec.getTrades.take 10).map Trade.getFees).sum
        = 10 := by
      have he : (manyTradesRec.getTrades.take 10).map Trade.getFees =
          List.replicate 10 (1 : ℚ) := by
        simp [manyTradesRec, BacktestResult.getTrades, feeTrade,
          Trade.getFees, List.take_replicate, List.map_replicate]
      rw [he, List.sum_replicate]
      norm_num
    rw [h11, h10]
    norm_num

lemma fillDefaults_getTrades (r : BacktestResult) :
    (fillDefaults r).getTrades = r.getTrades.map fillTrade := rfl

lemma fillDefaults_getTotalReturnPct (r : BacktestResult) :
    (fillDefaults r).getTotalReturnPct = r.getTotalReturnPct := rfl

lemma fillDefaults_getWinRate (r : BacktestResult) :
    (fillDefaults r).getWinRate = r.getWinRate := rfl

lemma fillDefaults_getMaxDrawdown (r : BacktestResult) :
    (fillDefaults r).getMaxDrawdown = r.getMaxDrawdown := rfl

lemma fillDefaults_getSharpe (r : BacktestResult) :
    (fillDefaults r).getSharpe = r.getSharpe := rfl

lemma fillDefaults_getInitialEquity (r : BacktestResult) :
    (fillDefaults r).getInitialEquity = r.getInitialEquity := rfl

lemma fillDefaults_getFinalEquity (r : BacktestResult) :
    (fillDefaults r).getFinalEquity = r.getFinalEquity := rfl

lemma tradeStep_fillTrade (s : PnlState) (i : Nat) (t : Trade) :
    tradeStep s i (fillTrade t) = tradeStep s i t := rfl

lemma runTrades_map_fillTrade (ts : List Trade) (s : PnlState) (i : Nat) :
    runTrades s i (ts.map fillTrade) = runTrades s i ts := by
  induction ts generalizing s i with
  | nil => rfl
  | cons t ts ih =>
    rw [show runTrades s i ((t :: ts).map fillTrade) =
        runTrades (tradeStep s i (fillTrade t)) (i + 1) (ts.map fillTrade)
      from rfl, tradeStep_fillTrade, ih]
    rfl

lemma pnlLoop_fillDefaults (r : BacktestResult) :
    pnlLoop (fillDefaults r) = pnlLoop r := by
  unfold pnlLoop checked_trades
  rw [fillDefaults_getTrades, fillDefaults_getInitialEquity,
    ← List.map_take, runTrades_map_fillTrade]

lemma total_fees_fillDefaults (r : BacktestResult) :
    total_fees (fillDefaults r) = total_fees r := by
  rw [total_fees, total_fees, fillDefaults_getTrades, List.map_map]
  have h : Trade.getFees ∘ fillTrade = Trade.getFees := funext fun t => rfl
  rw [h]

/-- C7: the script runs to completion with exit status 0 on every
well-formed record, and an absent field behaves exactly as its default
(zero, empty mapping or empty sequence): making every field explicitly
present with its defaulted value leaves the whole run unchanged, so no
record is ever rejected for missing fields. -/
theorem c7_defaults_total (r : BacktestResult) :
    run (fillDefaults r) = run r ∧ (run r).2 = 0 := by
  refine ⟨?_, rfl⟩
  have h1 : summaryLines (fillDefaults r) = summaryLines r := by
    rw [summaryLines, summaryLines, fillDefaults_getTrades,
      fillDefaults_getInitialEquity, fillDefaults_getFinalEquity,
      fillDefaults_getTotalReturnPct, fillDefaults_getWinRate,
      fillDefaults_getMaxDrawdown, fillDefaults_getSharpe, List.length_map]
  have h2 : pnlSection (fillDefaults r) = pnlSection r := by
    unfold pnlSection
    rw [pnlLoop_fillDefaults]
  have h3 : curveSection (fillDefaults r) = curveSection r := rfl
  have h4 : realismIssues (fillDefaults r) = realismIssues r := by
    unfold realismIssues
    rw [fillDefaults_getTotalReturnPct, fillDefaults_getWinRate,
      fillDefaults_getMaxDrawdown, fillDefaults_getTrades,
      total_fees_fillDefaults, List.length_map]
  have h5 : realismSection (fillDefaults r) = realismSection r := by
    unfold realismSection
    rw [fillDefaults_getTotalReturnPct, fillDefaults_getWinRate,
      fillDefaults_getMaxDrawdown, fillDefaults_getTrades,
      total_fees_fillDefaults, List.length_map, h4]
  rw [run, run, analyze, analyze, h1, h2, h3, h5]

/-- C8: the only effect of a run is text written to standard output; the
input record is unchanged at exit, and no file write or network call
appears in the effect trace. -/
theorem c8_only_stdout (r : BacktestResult) :
    (∀ e ∈ (runEffects r).1, e.isStdout = true) ∧ (runEffects r).2 = r := by
  refine ⟨?_, rfl⟩
  intro e he
  rcases List.mem_map.1 he with ⟨l, _, rfl⟩
  rfl

/-- Witness for C8 at the all-absent record: the separator line is in the
effect trace and is a stdout effect. -/
theorem c8_only_stdout_witness :
    Effect.stdout Line.sep ∈ (runEffects emptyRec).1 ∧
      (Effect.stdout Line.sep).isStdout = true := by
  have hm : Effect.stdout Line.sep ∈ (runEffects emptyRec).1 :=
    List.mem_map_of_mem Effect.stdout
      ((mem_analyze_iff Line.sep emptyRec).2 (Or.inl rfl))
  exact ⟨hm, (c8_only_stdout emptyRec).1 _ hm⟩

/-- C9: on a record whose trades sequence is empty, the pnl verification
section still prints its header and the all-verified success line (the
error counter stays zero vacuously), while the realism section reports the
no-trades issue for the same record. -/
theorem c9_empty_trades (r : BacktestResult) (h : r.getTrades = []) :
    Line.pnlHeader ∈ analyze r ∧ Line.allPnlVerified ∈ analyze r ∧
      Issue.noTrades ∈ realismIssues r ∧
      Line.issueLine Issue.noTrades ∈ analyze r := by
  have hloop : pnlLoop r = ⟨r.getInitialEquity, 0, []⟩ := by
    unfold pnlLoop checked_trades
    rw [h]
    rfl
  have hnt : Issue.noTrades ∈ realismIssues r := by
    unfold realismIssues
    refine List.mem_append.2 (Or.inl (List.mem_append.2 (Or.inl
      (List.mem_append.2 (Or.inr ?_)))))
    rw [h]
    simp
  refine ⟨?_, ?_, hnt, ?_⟩
  · rw [mem_analyze_pnl Line.pnlHeader rfl r]
    exact List.mem_cons_self _ _
  · rw [mem_analyze_pnl Line.allPnlVerified rfl r]
    refine List.mem_cons.2 (Or.inr (List.mem_append.2 (Or.inr ?_)))
    rw [hloop]
    simp
  · have hne : realismIssues r ≠ [] := fun hemp => by
      rw [hemp] at hnt
      exact absurd hnt (List.not_mem_nil _)
    rw [mem_analyze_realism (Line.issueLine Issue.noTrades) rfl r]
    unfold realismSection
    refine List.mem_cons.2 (Or.inr (List.mem_append.2 (Or.inr ?_)))
    rw [if_neg hne]
    exact List.mem_cons.2 (Or.inr (List.mem_map_of_mem _ hnt))

/-- Witness for C9 at the all-absent record, whose trades default to the
empty sequence. -/
theorem c9_empty_trades_witness :
    emptyRec.getTrades = [] ∧
      (Line.pnlHeader ∈ analyze emptyRec ∧
        Line.allPnlVerified ∈ analyze emptyRec ∧
        Issue.noTrades ∈ realismIssues emptyRec ∧
        Line.issueLine Issue.noTrades ∈ analyze emptyRec) :=
  ⟨rfl, c9_empty_trades emptyRec rfl⟩

/-- C10: when the performance mapping or its winRate key is absent the
effective win rate is 0, the win-rate check fails and appends the
unusual-win-rate warning at 0 percent; and no record whose effective win
rate scaled by 100 lies outside the closed range 20 to 80 can produce the
all-checks-passed summary. -/
theorem c10_winrate_default (r : BacktestResult) :
    ((r.getPerformance).winRate = none →
      r.getWinRate = 0 ∧
        Issue.unusualWinRate 0 ∈ realismIssues r ∧
        Line.issueLine (Issue.unusualWinRate 0) ∈ analyze r) ∧
    (r.getWinRate * 100 < 20 ∨ r.getWinRate * 100 > 80 →
      Line.allChecksPassed ∉ analyze r) := by
  have hkey : (r.getWinRate * 100 < 20 ∨ r.getWinRate * 100 > 80) →
      Issue.unusualWinRate (r.getWinRate * 100) ∈ realismIssues r := by
    intro hw
    unfold realismIssues
    refine List.mem_append.2 (Or.inl (List.mem_append.2 (Or.inl
      (List.mem_append.2 (Or.inl (List.mem_append.2 (Or.inr ?_)))))))
    rw [if_pos hw]
    simp
  constructor
  · intro hn
    have h0 : r.getWinRate = 0 := by
      unfold BacktestResult.getWinRate
      rw [hn]
      rfl
    have hw : r.getWinRate * 100 < 20 ∨ r.getWinRate * 100 > 80 := by
      rw [h0]
      norm_num
    have hmem := hkey hw
    rw [h0, zero_mul] at hmem
    have hne : realismIssues r ≠ [] := fun hemp => by
      rw [hemp] at hmem
      exact absurd hmem (List.not_mem_nil _)
    refine ⟨h0, hmem, ?_⟩
    rw [mem_analyze_realism (Line.issueLine (Issue.unusualWinRate 0)) rfl r]
    unfold realismSection
    refine List.mem_cons.2 (Or.inr (List.mem_append.2 (Or.inr ?_)))
    rw [if_neg hne]
    exact List.mem_cons.2 (Or.inr (List.mem_map_of_mem _ hmem))
  · intro hw hmem
    have hne : realismIssues r ≠ [] := fun hemp => by
      have hm := hkey hw
      rw [hemp] at hm
      exact absurd hm (List.not_mem_nil _)
    rw [mem_analyze_realism Line.allChecksPassed rfl r] at hmem
    rcases List.mem_cons.1 hmem with h1 | h1
    · exact absurd h1 (by simp)
    rcases List.mem_append.1 h1 with h2 | h2
    · rcases List.mem_append.1 h2 with h3 | h3
      · rcases List.mem_append.1 h3 with h4 | h4
        · rcases List.mem_append.1 h4 with h5 | h5
          · rcases List.mem_append.1 h5 with h6 | h6
            · exact absurd (tag_of_mem_empty_or_single h6) (by simp)
            · exact absurd (tag_of_mem_empty_or_single h6) (by simp)
          · exact absurd (tag_of_mem_empty_or_single h5) (by simp)
        · exact absurd (tag_of_mem_empty_or_single h4) (by simp)
      · exact absurd (tag_of_mem_empty_or_single h3) (by simp)
    · rw [if_neg hne] at h2
      rcases List.mem_cons.1 h2 with h3 | h3
      · exact absurd h3 (by simp)
      · rcases List.mem_map.1 h3 with ⟨iss, _, h4⟩
        exact absurd h4 (by simp)

/-- Witness for C10 at the all-absent record: winRate is absent, the
unusual-win-rate warning at 0 percent is printed and the all-checks-passed
line is not. -/
theorem c10_winrate_default_witness :
    Line.issueLine (Issue.unusualWinRate 0) ∈ analyze emptyRec ∧
      Line.allChecksPassed ∉ analyze emptyRec := by
  have h := c10_winrate_default emptyRec
  refine ⟨(h.1 rfl).2.2, h.2 (Or.inl ?_)⟩
  have h0 : emptyRec.getWinRate = 0 := rfl
  rw [h0, zero_mul]
  norm_num

/-- Witness for the amended C2 at the scenario A record: its equity curve
is non-empty and its last point matches finalEquity, so the match line is
printed. -/
theorem c2_curve_section_witness :
    sampleRec.getEquityCurve ≠ [] ∧ Line.curveMatch ∈ analyze sampleRec := by
  have hne : sampleRec.getEquityCurve ≠ [] := by
    simp [sampleRec, BacktestResult.getEquityCurve]
  refine ⟨hne, ?_⟩
  have h := ((c2_curve_section sampleRec).2.2 hne).2.2.2.2.1
  apply h.2
  norm_num [sampleRec, BacktestResult.getEquityCurve,
    BacktestResult.getFinalEquity, ratAbs, List.getLastD]

end AnalyzeBacktest
